import Mathlib

/-!
Shallow embedding of `src/services/csvValidation.ts` (LogiData).

Modelling conventions:
* JS strings are Lean `String`s; `String.prototype.trim` is `trimJS` over the
  JS whitespace set; `String.prototype.toLowerCase` is `String.toLower`
  (they agree on the ASCII range, which is all the keyword matching uses).
* JS `parseFloat` is `parseFloatJS`: longest numeric prefix, `Infinity`
  accepted, NaN modelled as `none`.  The exact decimal value of the prefix
  is rounded to the nearest IEEE-754 binary64 value (`roundToDouble`: round
  to nearest, ties to even, overflow to ±Infinity, underflow through the
  subnormals to 0), represented as the exact rational value of that double,
  so equality of model numbers coincides with equality of JS doubles.
* `new Date(...)` parsing is implementation-defined in JS, so it is a
  parameter `dp : String → Option String` returning the `toISOString()`
  result on success (`dparse0` is a concrete instance used for evaluation).
* The duplicate key `JSON.stringify(cleanedData)` is modelled by the list of
  cleaned values in column order with non-finite numbers conflated to null
  (`rowKeyOf`), because `JSON.stringify` serialises ±Infinity as `null`.
  On these conflated values the JS serialisation is injective for a fixed
  column list: finite numbers are doubles after `roundToDouble` and JS
  prints equal doubles equally and distinct doubles distinctly, string
  escaping is injective, and the `null`/`true`/`false`/number/string
  tokens are pairwise distinguishable — so key equality coincides with
  equality of the conflated value lists.
* The rejected promise of `validateCSV` is modelled by `Except.error`.
-/

namespace LogiData

/-- The JS whitespace class (`\s`, also what `trim` removes). -/
def jsWhitespace (c : Char) : Bool :=
  c = ' ' || c = '\t' || c = '\n' || c = '\r' || c = '\x0b' || c = '\x0c' ||
  c = ' ' || c = ' ' || (' ' ≤ c && c ≤ ' ') ||
  c = ' ' || c = ' ' || c = ' ' || c = ' ' ||
  c = '　' || c = '﻿'

/-- `String.prototype.trim`. -/
def trimJS (s : String) : String :=
  String.mk (((s.toList.dropWhile jsWhitespace).reverse.dropWhile jsWhitespace).reverse)

/-- `String.prototype.toLowerCase` (ASCII range, see header note). -/
def toLowerJS (s : String) : String :=
  String.mk (s.toList.map Char.toLower)

/-- Splitting a character list at every occurrence of `sep`
(`"a,,b" ↦ ["a", "", "b"]`, `"" ↦ [""]`, like the JS `split`). -/
def splitOnChar (sep : Char) : List Char → List (List Char)
  | [] => [[]]
  | c :: rest =>
    match splitOnChar sep rest with
    | [] => [[c]]
    | g :: gs => if c = sep then [] :: g :: gs else (c :: g) :: gs

/-- `String.prototype.split` with a one-character separator. -/
def jsSplit (s : String) (sep : Char) : List String :=
  (splitOnChar sep s.toList).map String.mk

/-- `String.prototype.includes` (substring test). -/
def jsIncludes (s sub : String) : Bool :=
  decide (sub.toList <:+: s.toList)

/-- The five column types of `ValidationResult.type`. -/
inductive ColType where
  | string
  | number
  | date
  | boolean
  | email
deriving DecidableEq, Repr

/-- Per-column body of `CSVValidator.detectColumnTypes` (lines 37-53):
keyword heuristics on the lowercased column name, first match wins. -/
def inferColumnType (col : String) : ColType :=
  let lowerCol := toLowerJS col
  if jsIncludes lowerCol "email" then ColType.email
  else if jsIncludes lowerCol "date" || jsIncludes lowerCol "time" then ColType.date
  else if jsIncludes lowerCol "price" || jsIncludes lowerCol "amount" || jsIncludes lowerCol "cost" then ColType.number
  else if jsIncludes lowerCol "active" || jsIncludes lowerCol "enabled" then ColType.boolean
  else ColType.string

/-- A JS number that `parseFloat` can produce (NaN is `Option.none` upstream). -/
inductive JSNum where
  | finite (q : Rat)
  | posInf
  | negInf
deriving DecidableEq, Repr

/-- A cleaned cell value (`cleanedValue` / entries of `cleanedData`). -/
inductive JSValue where
  | null
  | str (s : String)
  | num (n : JSNum)
  | boolean (b : Bool)
deriving DecidableEq, Repr

/-- Decimal digits to a natural number. -/
def digitsToNat (ds : List Char) : Nat :=
  ds.foldl (fun a c => 10 * a + (c.toNat - 48)) 0

/-- Fuelled binary logarithm on naturals (`natLog2F n n = ⌊log₂ n⌋`). -/
def natLog2F : Nat → Nat → Nat
  | 0, _ => 0
  | fuel + 1, n => if 2 ≤ n then natLog2F fuel (n / 2) + 1 else 0

/-- `⌊log₂ n⌋` for `n ≥ 1`. -/
def natLog2D (n : Nat) : Nat :=
  natLog2F n n

/-- Round an exact rational to the nearest IEEE-754 binary64 value (ties to
even), as JS does when materialising the result of `parseFloat`: the result
is the exact rational value of that double, or ±Infinity on overflow;
subnormals and underflow to 0 are handled by clamping the scaling exponent
at the minimum normal exponent −1022. -/
def roundToDouble (q : Rat) : JSNum :=
  if q = 0 then JSNum.finite 0
  else
    let n : Nat := q.num.natAbs
    let d : Nat := q.den
    let p0 : Int := (natLog2D n : Int) - (natLog2D d : Int)
    let age : Bool :=
      if 0 ≤ p0 then decide (d * 2 ^ p0.toNat ≤ n) else decide (d ≤ n * 2 ^ (-p0).toNat)
    let p : Int := if age then p0 else p0 - 1
    let k : Int := 52 - max p (-1022)
    let N : Nat := if 0 ≤ k then n * 2 ^ k.toNat else n
    let D : Nat := if 0 ≤ k then d else d * 2 ^ (-k).toNat
    let m0 : Nat := N / D
    let r : Nat := N % D
    let m : Nat :=
      if D < 2 * r then m0 + 1
      else if 2 * r < D then m0
      else if m0 % 2 = 0 then m0 else m0 + 1
    if m = 0 then JSNum.finite 0
    else
      let mk : Nat × Int := if m = 2 ^ 53 then (2 ^ 52, k - 1) else (m, k)
      if mk.2 < -971 then (if q.num < 0 then JSNum.negInf else JSNum.posInf)
      else
        let mag : Rat := if 0 ≤ mk.2 then mkRat mk.1 (2 ^ mk.2.toNat)
          else ((mk.1 * 2 ^ (-mk.2).toNat : Nat) : Rat)
        JSNum.finite (if q.num < 0 then -mag else mag)

/-- `parseFloat` on a character list: returns the parsed value (`none` for
NaN) together with the unconsumed remainder.  Grammar: optional whitespace,
optional sign, then either `Infinity` or decimal digits with optional
fraction and optional exponent; the longest valid prefix is consumed. -/
def parseFloatParts (cs0 : List Char) : Option JSNum × List Char :=
  let cs := cs0.dropWhile jsWhitespace
  let sgnCs : Int × List Char :=
    match cs with
    | '+' :: r => (1, r)
    | '-' :: r => (-1, r)
    | _ => (1, cs)
  let sgn := sgnCs.1
  let cs1 := sgnCs.2
  if "Infinity".toList.isPrefixOf cs1 then
    (some (if sgn = 1 then JSNum.posInf else JSNum.negInf), cs1.drop 8)
  else
    let intD := cs1.takeWhile Char.isDigit
    let cs2 := cs1.drop intD.length
    let fracCs : List Char × List Char :=
      match cs2 with
      | '.' :: r => (r.takeWhile Char.isDigit, r.drop (r.takeWhile Char.isDigit).length)
      | _ => ([], cs2)
    let fracD := fracCs.1
    let cs3 := fracCs.2
    if intD.isEmpty && fracD.isEmpty then (none, cs0)
    else
      let mant : Int := sgn * (digitsToNat (intD ++ fracD) : Int)
      let expCs : Int × List Char :=
        match cs3 with
        | e :: r =>
          if e = 'e' || e = 'E' then
            let esgnR : Int × List Char :=
              match r with
              | '+' :: r2 => (1, r2)
              | '-' :: r2 => (-1, r2)
              | _ => (1, r)
            let expD := esgnR.2.takeWhile Char.isDigit
            if expD.isEmpty then (0, cs3)
            else (esgnR.1 * (digitsToNat expD : Int), esgnR.2.drop expD.length)
          else (0, cs3)
        | [] => (0, cs3)
      let shift : Int := expCs.1 - (fracD.length : Int)
      let q : Rat :=
        if 0 ≤ shift then mkRat (mant * ((10 ^ shift.toNat : Nat) : Int)) 1
        else mkRat mant (10 ^ (-shift).toNat)
      (some (roundToDouble q), expCs.2)

/-- `parseFloat(s)`, `none` meaning NaN. -/
def parseFloatJS (s : String) : Option JSNum :=
  (parseFloatParts s.toList).1

/-- Modelled from the claim's words, for comparison with the code: the whole
value (no trailing garbage) parses as a floating-point number. -/
def parsesAsFloatEntirely (s : String) : Bool :=
  match parseFloatParts s.toList with
  | (some _, []) => true
  | _ => false

/-- `String.prototype.length`: the number of UTF-16 code units (astral
characters count twice). -/
def utf16Length (s : String) : Nat :=
  s.toList.foldl (fun a c => a + (if 65536 <= c.toNat then 2 else 1)) 0

/-- Character class `[^\s@]` of the email regex. -/
def emailAtomChar (c : Char) : Bool :=
  !(jsWhitespace c) && c ≠ '@'

/-- The regex `^[^\s@]+@[^\s@]+\.[^\s@]+$` (line 79): exactly one `@`, a
nonempty local part, and a domain part with an interior dot, no whitespace
anywhere. -/
def emailRegexTest (s : String) : Bool :=
  match jsSplit s '@' with
  | [l, d] =>
    let lc := l.toList
    let dc := d.toList
    !lc.isEmpty && lc.all emailAtomChar && !dc.isEmpty && dc.all emailAtomChar &&
    ((dc.drop 1).dropLast.contains '.')
  | _ => false

/-- `ValidationResult` (lines 2-7). -/
structure ValidationResult where
  isValid : Bool
  errors : List String
  cleanedValue : JSValue
  type : ColType
deriving DecidableEq, Repr

/-- `CSVValidator.validateValue` (lines 55-118).  `dp` models `new Date`
parsing (returning the `toISOString()` string on success). -/
def validateValue (dp : String → Option String) (value : String) (expectedType : ColType) :
    ValidationResult :=
  let cleaned := trimJS value
  if cleaned = "" then
    { isValid := false, errors := ["Missing value"], cleanedValue := JSValue.null,
      type := expectedType }
  else
    match expectedType with
    | ColType.number =>
      match parseFloatJS cleaned with
      | none =>
        { isValid := false, errors := ["Invalid number format"],
          cleanedValue := JSValue.str cleaned, type := ColType.number }
      | some n =>
        { isValid := true, errors := [], cleanedValue := JSValue.num n,
          type := ColType.number }
    | ColType.email =>
      if emailRegexTest cleaned then
        { isValid := true, errors := [], cleanedValue := JSValue.str cleaned,
          type := ColType.email }
      else
        { isValid := false, errors := ["Invalid email format"],
          cleanedValue := JSValue.str cleaned, type := ColType.email }
    | ColType.date =>
      match dp cleaned with
      | none =>
        { isValid := false, errors := ["Invalid date format"],
          cleanedValue := JSValue.str cleaned, type := ColType.date }
      | some iso =>
        { isValid := true, errors := [], cleanedValue := JSValue.str iso,
          type := ColType.date }
    | ColType.boolean =>
      let lowerValue := toLowerJS cleaned
      if lowerValue ∈ ["true", "1", "yes", "on"] then
        { isValid := true, errors := [], cleanedValue := JSValue.boolean true,
          type := ColType.boolean }
      else if lowerValue ∈ ["false", "0", "no", "off"] then
        { isValid := true, errors := [], cleanedValue := JSValue.boolean false,
          type := ColType.boolean }
      else
        { isValid := false, errors := ["Invalid boolean value"],
          cleanedValue := JSValue.str cleaned, type := ColType.boolean }
    | ColType.string =>
      if utf16Length cleaned > 1000 then
        { isValid := false, errors := ["String too long (max 1000 characters)"],
          cleanedValue := JSValue.str cleaned, type := ColType.string }
      else
        { isValid := true, errors := [], cleanedValue := JSValue.str cleaned,
          type := ColType.string }

/-- `RowValidationResult` (lines 9-15); `data` is `cleanedData` as the list
of cleaned values in column order. -/
structure RowValidationResult where
  rowNumber : Nat
  data : List JSValue
  errors : List String
  isDuplicate : Bool
  isValid : Bool
deriving DecidableEq, Repr

/-- Placeholder row result for out-of-range `List.getD` lookups. -/
def defaultRowResult : RowValidationResult :=
  { rowNumber := 0, data := [], errors := [], isDuplicate := false, isValid := false }

/-- The per-column validation pass of `validateRow` (lines 126-137):
each column paired with the result of validating its cell. -/
def cellResultsOf (dp : String → Option String) (columns : List String)
    (rowData : String → String) : List (String × ValidationResult) :=
  columns.map (fun col => (col, validateValue dp (rowData col) (inferColumnType col)))

/-- `cleanedData` of a row: the cleaned values in column order. -/
def cleanedDataOf (dp : String → Option String) (columns : List String)
    (rowData : String → String) : List JSValue :=
  (cellResultsOf dp columns rowData).map (fun cr => cr.2.cleanedValue)

/-- The `errors` list of a row: one `"col: msgs"` entry per invalid cell. -/
def rowErrorsOf (dp : String → Option String) (columns : List String)
    (rowData : String → String) : List String :=
  ((cellResultsOf dp columns rowData).filter (fun cr => !cr.2.isValid)).map
    (fun cr => cr.1 ++ ": " ++ String.intercalate ", " cr.2.errors)

/-- Whether every cell of the row validated. -/
def cellsValidOf (dp : String → Option String) (columns : List String)
    (rowData : String → String) : Bool :=
  (cellResultsOf dp columns rowData).all (fun cr => cr.2.isValid)

/-- How a cleaned value enters the `JSON.stringify` row key: ±Infinity
serialises as `null`, every other value keeps its own (injective)
serialisation, so the key-relevant image conflates non-finite numbers with
null and is the identity elsewhere. -/
def jsonValueKey : JSValue → JSValue
  | JSValue.num JSNum.posInf => JSValue.null
  | JSValue.num JSNum.negInf => JSValue.null
  | v => v

/-- The duplicate-detection key `JSON.stringify(cleanedData)` of a row, up
to the injective serialisation: the cleaned values in column order with
non-finite numbers conflated to null. -/
def rowKeyOf (dp : String → Option String) (columns : List String)
    (rowData : String → String) : List JSValue :=
  (cleanedDataOf dp columns rowData).map jsonValueKey

/-- `CSVValidator.validateRow` (lines 120-153), with the seen-key set
threaded explicitly: returns the row result and the updated seen set. -/
def validateRow (dp : String → Option String) (columns : List String)
    (seen : List (List JSValue)) (rowData : String → String) (rowNumber : Nat) :
    RowValidationResult × List (List JSValue) :=
  ({ rowNumber := rowNumber,
     data := cleanedDataOf dp columns rowData,
     errors := rowErrorsOf dp columns rowData,
     isDuplicate := decide (rowKeyOf dp columns rowData ∈ seen),
     isValid := cellsValidOf dp columns rowData &&
       !decide (rowKeyOf dp columns rowData ∈ seen) },
   if rowKeyOf dp columns rowData ∈ seen then seen
   else rowKeyOf dp columns rowData :: seen)

/-- The data-row loop of `validateCSV` (lines 204-214): validate each row in
order, numbering from `rowNumber`, threading the seen-row set. -/
def processRows (dp : String → Option String) (columns : List String)
    (rows : List (String → String)) (rowNumber : Nat) (seen : List (List JSValue)) :
    List RowValidationResult :=
  match rows with
  | [] => []
  | r :: rest =>
    let step := validateRow dp columns seen r rowNumber
    step.1 :: processRows dp columns rest (rowNumber + 1) step.2

/-- `CSVValidationSummary` (lines 17-25). -/
structure CSVValidationSummary where
  totalRows : Nat
  validRows : Nat
  duplicateRows : Nat
  errorRows : Nat
  columnTypes : List (String × ColType)
  validationErrors : List String
  issues : List String
deriving DecidableEq, Repr

/-- `CSVValidator.getValidationSummary` (lines 155-176). -/
def getValidationSummary (columns : List String) (results : List RowValidationResult) :
    CSVValidationSummary :=
  let validRows := (results.filter (fun r => r.isValid)).length
  let duplicateRows := (results.filter (fun r => r.isDuplicate)).length
  let errorRows := (results.filter (fun r => !r.isValid && !r.isDuplicate)).length
  let allErrors := results.filterMap (fun r =>
    if r.errors.length > 0 then
      some ("Row " ++ toString r.rowNumber ++ ": " ++ String.intercalate ", " r.errors)
    else none)
  { totalRows := results.length, validRows := validRows, duplicateRows := duplicateRows,
    errorRows := errorRows, columnTypes := columns.map (fun c => (c, inferColumnType c)),
    validationErrors := allErrors, issues := allErrors }

/-- Field parsing of `validateCSV` (lines 198 and 205): trim the field, then
`replace(/"/g, '')`, i.e. delete every double-quote character. -/
def parseField (f : String) : String :=
  String.mk ((trimJS f).toList.filter (fun c => c ≠ '"'))

/-- `rowData` construction (lines 206-210): assign `values[index] || ''` to
each header in order (later duplicate headers overwrite earlier ones). -/
def rowDataOf (headers values : List String) : String → String :=
  headers.enum.foldl (fun acc hi => fun c => if c = hi.2 then values.getD hi.1 "" else acc c)
    (fun _ => "")

/-- Line splitting and blank-line filtering of `validateCSV` (line 190). -/
def filteredLines (csv : String) : List String :=
  (jsSplit csv '\n').filter (fun line => trimJS line ≠ "")

/-- `validateCSV` (lines 180-226) on the file's text content; the rejected
promise on empty input is `Except.error`. -/
def validateCSV (dp : String → Option String) (csv : String) :
    Except String (List RowValidationResult × CSVValidationSummary) :=
  match filteredLines csv with
  | [] => Except.error "Empty CSV file"
  | headerLine :: dataLines =>
    let headers := (jsSplit headerLine ',').map parseField
    let rows := dataLines.map (fun line =>
      rowDataOf headers ((jsSplit line ',').map parseField))
    let results := processRows dp headers rows 1 []
    Except.ok (results, getValidationSummary headers results)

/-- A concrete date-parsing instance (used to evaluate closed examples on
non-date columns, where its value is irrelevant). -/
def dparse0 : String → Option String := fun _ => none

/-- The row result of `validateRow` carries the cleaned data. -/
theorem validateRow_fst_data (dp : String → Option String) (c : List String)
    (seen : List (List JSValue)) (r : String → String) (n : Nat) :
    (validateRow dp c seen r n).1.data = cleanedDataOf dp c r := rfl

/-- The serialised key of a row result is its cleaned data conflated by
`jsonValueKey`. -/
theorem validateRow_fst_key (dp : String → Option String) (c : List String)
    (seen : List (List JSValue)) (r : String → String) (n : Nat) :
    (validateRow dp c seen r n).1.data.map jsonValueKey = rowKeyOf dp c r := rfl

/-- `isDuplicate` is exactly membership of the serialised key in the seen
set. -/
theorem validateRow_fst_isDuplicate (dp : String → Option String) (c : List String)
    (seen : List (List JSValue)) (r : String → String) (n : Nat) :
    (validateRow dp c seen r n).1.isDuplicate = decide (rowKeyOf dp c r ∈ seen) := rfl

/-- `isValid` is cell validity conjoined with non-duplication. -/
theorem validateRow_fst_isValid (dp : String → Option String) (c : List String)
    (seen : List (List JSValue)) (r : String → String) (n : Nat) :
    (validateRow dp c seen r n).1.isValid
      = (cellsValidOf dp c r && !decide (rowKeyOf dp c r ∈ seen)) := rfl

/-- The updated seen set of `validateRow`. -/
theorem validateRow_snd_eq (dp : String → Option String) (c : List String)
    (seen : List (List JSValue)) (r : String → String) (n : Nat) :
    (validateRow dp c seen r n).2
      = if rowKeyOf dp c r ∈ seen then seen else rowKeyOf dp c r :: seen := rfl

/-- Unfolding `processRows` on a cons cell. -/
theorem processRows_cons (dp : String → Option String) (c : List String)
    (r : String → String) (rest : List (String → String)) (n : Nat)
    (seen : List (List JSValue)) :
    processRows dp c (r :: rest) n seen
      = (validateRow dp c seen r n).1 :: processRows dp c rest (n + 1) (validateRow dp c seen r n).2 := rfl

/-- `processRows` yields one result per input row. -/
theorem processRows_length (dp : String → Option String) (c : List String) :
    ∀ (rows : List (String → String)) (n : Nat) (seen : List (List JSValue)),
      (processRows dp c rows n seen).length = rows.length := by
  intro rows
  induction rows with
  | nil => intro n seen; rfl
  | cons r rest ih =>
    intro n seen
    rw [processRows_cons, List.length_cons, ih]
    rfl

/-- A row result marked valid is never marked duplicate. -/
theorem validateRow_valid_not_dup (dp : String → Option String) (c : List String)
    (seen : List (List JSValue)) (r : String → String) (n : Nat)
    (h : (validateRow dp c seen r n).1.isValid = true) :
    (validateRow dp c seen r n).1.isDuplicate = false := by
  rw [validateRow_fst_isValid] at h
  rw [validateRow_fst_isDuplicate]
  rw [Bool.and_eq_true] at h
  simpa using h.2

/-- Every result a run produces satisfies valid-implies-not-duplicate. -/
theorem mem_processRows_valid_not_dup (dp : String → Option String) (c : List String) :
    ∀ (rows : List (String → String)) (n : Nat) (seen : List (List JSValue))
      (res : RowValidationResult), res ∈ processRows dp c rows n seen →
      res.isValid = true → res.isDuplicate = false := by
  intro rows
  induction rows with
  | nil => intro n seen res h; simp [processRows] at h
  | cons r rest ih =>
    intro n seen res h hv
    rw [processRows_cons] at h
    rcases List.mem_cons.1 h with he | ht
    · subst he; exact validateRow_valid_not_dup dp c seen r n hv
    · exact ih _ _ _ ht hv

/-- Counting partition: if no result is valid and duplicate at once, the
valid/duplicate/error filters partition the result list. -/
theorem count_partition :
    ∀ (results : List RowValidationResult),
      (∀ res ∈ results, res.isValid = true → res.isDuplicate = false) →
      (results.filter (fun r => r.isValid)).length +
      (results.filter (fun r => r.isDuplicate)).length +
      (results.filter (fun r => !r.isValid && !r.isDuplicate)).length = results.length := by
  intro results
  induction results with
  | nil => intro _; rfl
  | cons r rest ih =>
    intro h
    have hr := h r (List.mem_cons_self r rest)
    have hrest := ih fun x hx => h x (List.mem_cons_of_mem r hx)
    cases hv : r.isValid <;> cases hd : r.isDuplicate
    · simp [List.filter_cons, hv, hd]; omega
    · simp [List.filter_cons, hv, hd]; omega
    · simp [List.filter_cons, hv, hd]; omega
    · exact absurd (hr hv) (by simp [hd])

/-- Summary counters partition the results whenever the results satisfy
valid-implies-not-duplicate. -/
theorem getValidationSummary_partition (columns : List String)
    (results : List RowValidationResult)
    (h : ∀ res ∈ results, res.isValid = true → res.isDuplicate = false) :
    (getValidationSummary columns results).validRows +
    (getValidationSummary columns results).duplicateRows +
    (getValidationSummary columns results).errorRows
      = (getValidationSummary columns results).totalRows := by
  show (results.filter (fun r => r.isValid)).length +
    (results.filter (fun r => r.isDuplicate)).length +
    (results.filter (fun r => !r.isValid && !r.isDuplicate)).length = results.length
  exact count_partition results h

/-- C1: for every run of the validator, the summary satisfies
`validRows + duplicateRows + errorRows = totalRows`; the error counter
excludes duplicate rows, so a duplicate is never double-counted as error. -/
theorem validateCSV_summary_partition (dp : String → Option String) (csv : String)
    (results : List RowValidationResult) (summary : CSVValidationSummary)
    (h : validateCSV dp csv = Except.ok (results, summary)) :
    summary.validRows + summary.duplicateRows + summary.errorRows = summary.totalRows := by
  unfold validateCSV at h
  cases hl : filteredLines csv with
  | nil => rw [hl] at h; exact absurd h (by simp)
  | cons headerLine dataLines =>
    rw [hl] at h
    simp only [Except.ok.injEq, Prod.mk.injEq] at h
    obtain ⟨hres, hsum⟩ := h
    subst hres
    subst hsum
    exact getValidationSummary_partition _ _
      (fun res hres => mem_processRows_valid_not_dup dp _ _ _ _ res hres)

/-- Closed instance of C1 on the one-row file `"a\nx"`. -/
theorem validateCSV_summary_partition_witness :
    (CSVValidationSummary.mk 1 1 0 0 [("a", ColType.string)] [] []).validRows +
    (CSVValidationSummary.mk 1 1 0 0 [("a", ColType.string)] [] []).duplicateRows +
    (CSVValidationSummary.mk 1 1 0 0 [("a", ColType.string)] [] []).errorRows =
    (CSVValidationSummary.mk 1 1 0 0 [("a", ColType.string)] [] []).totalRows :=
  validateCSV_summary_partition dparse0 "a\nx"
    [RowValidationResult.mk 1 [JSValue.str "x"] [] false true]
    (CSVValidationSummary.mk 1 1 0 0 [("a", ColType.string)] [] []) rfl

/-- The seen set only grows across a `validateRow` step. -/
theorem validateRow_seen_subset (dp : String → Option String) (c : List String)
    (seen : List (List JSValue)) (r : String → String) (n : Nat)
    (x : List JSValue) (hx : x ∈ seen) : x ∈ (validateRow dp c seen r n).2 := by
  rw [validateRow_snd_eq]
  split
  · exact hx
  · exact List.mem_cons_of_mem _ hx

/-- After a `validateRow` step the row's serialised key is in the seen set
(it was either already there or has just been added). -/
theorem validateRow_key_mem_snd (dp : String → Option String) (c : List String)
    (seen : List (List JSValue)) (r : String → String) (n : Nat) :
    rowKeyOf dp c r ∈ (validateRow dp c seen r n).2 := by
  rw [validateRow_snd_eq]
  split
  · assumption
  · exact List.mem_cons_self _ _

/-- A row result marked duplicate is never marked valid. -/
theorem validateRow_dup_not_valid (dp : String → Option String) (c : List String)
    (seen : List (List JSValue)) (r : String → String) (n : Nat)
    (h : (validateRow dp c seen r n).1.isDuplicate = true) :
    (validateRow dp c seen r n).1.isValid = false := by
  rw [validateRow_fst_isDuplicate] at h
  rw [validateRow_fst_isValid, h]
  simp

/-- Every result a run produces satisfies duplicate-implies-not-valid. -/
theorem mem_processRows_dup_not_valid (dp : String → Option String) (c : List String) :
    ∀ (rows : List (String → String)) (n : Nat) (seen : List (List JSValue))
      (res : RowValidationResult), res ∈ processRows dp c rows n seen →
      res.isDuplicate = true → res.isValid = false := by
  intro rows
  induction rows with
  | nil => intro n seen res h; simp [processRows] at h
  | cons r rest ih =>
    intro n seen res h hd
    rw [processRows_cons] at h
    rcases List.mem_cons.1 h with he | ht
    · subst he; exact validateRow_dup_not_valid dp c seen r n hd
    · exact ih _ _ _ ht hd

/-- A row whose serialised key is already in the incoming seen set is
marked duplicate, wherever it occurs in the run. -/
theorem processRows_getD_dup_of_seen (dp : String → Option String) (c : List String) :
    ∀ (rows : List (String → String)) (n : Nat) (seen : List (List JSValue))
      (x : List JSValue) (k : Nat), x ∈ seen → k < rows.length →
      ((processRows dp c rows n seen).getD k defaultRowResult).data.map jsonValueKey = x →
      ((processRows dp c rows n seen).getD k defaultRowResult).isDuplicate = true := by
  intro rows
  induction rows with
  | nil => intro n seen x k _ hk; exact absurd hk (by simp)
  | cons r rest ih =>
    intro n seen x k hx hk hdata
    rw [processRows_cons] at hdata ⊢
    cases k with
    | zero =>
      rw [List.getD_cons_zero] at hdata ⊢
      rw [validateRow_fst_key] at hdata
      rw [validateRow_fst_isDuplicate]
      simp only [decide_eq_true_iff]
      rw [hdata]
      exact hx
    | succ k' =>
      rw [List.getD_cons_succ] at hdata ⊢
      exact ih (n + 1) _ x k' (validateRow_seen_subset dp c seen r n x hx)
        (by simpa using Nat.lt_of_succ_lt_succ hk) hdata

/-- In one run, a later row whose cleaned data equals that of an earlier row
is marked duplicate. -/
theorem processRows_getD_dup (dp : String → Option String) (c : List String) :
    ∀ (rows : List (String → String)) (n : Nat) (seen : List (List JSValue))
      (i j : Nat), i < j → j < rows.length →
      ((processRows dp c rows n seen).getD i defaultRowResult).data =
        ((processRows dp c rows n seen).getD j defaultRowResult).data →
      ((processRows dp c rows n seen).getD j defaultRowResult).isDuplicate = true := by
  intro rows
  induction rows with
  | nil => intro n seen i j _ hj; exact absurd hj (by simp)
  | cons r rest ih =>
    intro n seen i j hij hj hdata
    rw [processRows_cons] at hdata ⊢
    cases j with
    | zero => exact absurd hij (Nat.not_lt_zero i)
    | succ j' =>
      rw [List.getD_cons_succ] at hdata ⊢
      cases i with
      | zero =>
        rw [List.getD_cons_zero] at hdata
        refine processRows_getD_dup_of_seen dp c rest (n + 1) _
          (rowKeyOf dp c r) j'
          (validateRow_key_mem_snd dp c seen r n)
          (by simpa using Nat.lt_of_succ_lt_succ hj) ?_
        rw [← hdata, validateRow_fst_key]
      | succ i' =>
        rw [List.getD_cons_succ] at hdata
        exact ih (n + 1) _ i' j' (Nat.lt_of_succ_lt_succ hij)
          (by simpa using Nat.lt_of_succ_lt_succ hj) hdata

/-- A duplicate row in a run is also marked invalid. -/
theorem processRows_getD_dup_not_valid (dp : String → Option String) (c : List String)
    (rows : List (String → String)) (n : Nat) (seen : List (List JSValue)) (k : Nat)
    (hk : k < rows.length)
    (hd : ((processRows dp c rows n seen).getD k defaultRowResult).isDuplicate = true) :
    ((processRows dp c rows n seen).getD k defaultRowResult).isValid = false := by
  have hk' : k < (processRows dp c rows n seen).length := by
    rw [processRows_length]; exact hk
  have hmem : (processRows dp c rows n seen).getD k defaultRowResult
      ∈ processRows dp c rows n seen := by
    rw [List.getD_eq_getElem _ _ hk']
    exact List.getElem_mem hk'
  exact mem_processRows_dup_not_valid dp c rows n seen _ hmem hd

/-- C2 counterexample: the duplicate key is the JSON serialisation of the
coerced data, in which an Infinity cell serialises as `null`; with column
`price` and raw rows `""` then `"Infinity"`, the second row is the FIRST
occurrence of its coerced-data mapping `[num +Inf]` (distinct from the
first row's `[null]`), yet the program marks it `isDuplicate = true` and
`isValid = false` — refuting the claim that the first occurrence of a
coerced mapping has `isDuplicate = false` and enters the seen set. -/
theorem duplicate_detection_cex :
    ((processRows dparse0 ["price"] [fun _ => "", fun _ => "Infinity"] 1 []).map
      (fun r => (r.isDuplicate, r.isValid, r.data))
      = [(false, false, [JSValue.null]), (true, false, [JSValue.num JSNum.posInf])])
    ∧ ([JSValue.num JSNum.posInf] : List JSValue) ≠ [JSValue.null] := by
  constructor
  · decide
  · decide

/-- C2 amended: duplicate detection compares the JSON serialisation of the
fully coerced row data (numbers as IEEE doubles, non-finite numbers
serialising as null), within one run.  A later row whose coerced data
equals an earlier row's is always marked duplicate and invalid (equal data
gives equal keys); `isDuplicate` is exactly membership of the row's
serialised key in the seen set, a duplicate leaves the seen set unchanged,
and a row whose key is unseen has `isDuplicate = false` and its key is
added.  Concretely, raw `"1"` and `" 1 "` in a numeric column are
duplicates of each other, and the file `"id,price"` with twice `"1,9.99"`
summarises as one duplicate row and zero error rows. -/
theorem duplicate_detection :
    (∀ (dp : String → Option String) (columns : List String)
       (rows : List (String → String)) (i j : Nat), i < j → j < rows.length →
       ((processRows dp columns rows 1 []).getD i defaultRowResult).data =
         ((processRows dp columns rows 1 []).getD j defaultRowResult).data →
       ((processRows dp columns rows 1 []).getD j defaultRowResult).isDuplicate = true ∧
       ((processRows dp columns rows 1 []).getD j defaultRowResult).isValid = false)
    ∧ (∀ (dp : String → Option String) (columns : List String)
         (seen : List (List JSValue)) (rowData : String → String) (n : Nat),
         ((validateRow dp columns seen rowData n).1.isDuplicate = true ↔
           (validateRow dp columns seen rowData n).1.data.map jsonValueKey ∈ seen)
         ∧ ((validateRow dp columns seen rowData n).1.data.map jsonValueKey ∈ seen →
             (validateRow dp columns seen rowData n).2 = seen)
         ∧ ((validateRow dp columns seen rowData n).1.data.map jsonValueKey ∉ seen →
             (validateRow dp columns seen rowData n).1.isDuplicate = false ∧
             (validateRow dp columns seen rowData n).2
               = (validateRow dp columns seen rowData n).1.data.map jsonValueKey :: seen))
    ∧ ((processRows dparse0 ["price"] [fun _ => "1", fun _ => " 1 "] 1 []).map
         (fun r => (r.isDuplicate, r.isValid)) = [(false, true), (true, false)])
    ∧ ((validateCSV dparse0 "id,price\n1,9.99\n1,9.99").toOption.map (fun p =>
         (p.2.duplicateRows, p.2.errorRows, p.1.map (fun r => (r.isValid, r.isDuplicate))))
         = some (1, 0, [(true, false), (false, true)])) := by
  refine ⟨?_, ?_, ?_, ?_⟩
  · intro dp columns rows i j hij hj hdata
    have hdup := processRows_getD_dup dp columns rows 1 [] i j hij hj hdata
    exact ⟨hdup, processRows_getD_dup_not_valid dp columns rows 1 [] j hj hdup⟩
  · intro dp columns seen rowData n
    refine ⟨?_, ?_, ?_⟩
    · rw [validateRow_fst_isDuplicate, validateRow_fst_key]
      exact decide_eq_true_iff
    · intro hmem
      rw [validateRow_fst_key] at hmem
      rw [validateRow_snd_eq, if_pos hmem]
    · intro hmem
      rw [validateRow_fst_key] at hmem
      constructor
      · rw [validateRow_fst_isDuplicate]
        simpa using hmem
      · rw [validateRow_snd_eq, validateRow_fst_key, if_neg hmem]
  · decide
  · decide

/-- Closed instance of C2: in the run over column `"price"` with raw rows
`"1"` then `" 1 "`, the second row is marked duplicate and invalid. -/
theorem duplicate_detection_witness :
    ((processRows dparse0 ["price"] [fun _ => "1", fun _ => " 1 "] 1 []).getD 1
      defaultRowResult).isDuplicate = true ∧
    ((processRows dparse0 ["price"] [fun _ => "1", fun _ => " 1 "] 1 []).getD 1
      defaultRowResult).isValid = false :=
  duplicate_detection.1 dparse0 ["price"] [fun _ => "1", fun _ => " 1 "] 0 1
    (by decide) (by decide) (by decide)

/-- C3: column type inference is a pure total function of the column name
into the five types, by case-insensitive substring matching with
first-match-wins precedence email, then date/time, then price/amount/cost,
then active/enabled, else string; `"email_date"` infers email. -/
theorem column_type_inference :
    (∀ name : String,
       inferColumnType name = ColType.email ∨ inferColumnType name = ColType.date ∨
       inferColumnType name = ColType.number ∨ inferColumnType name = ColType.boolean ∨
       inferColumnType name = ColType.string)
    ∧ (∀ name : String, jsIncludes (toLowerJS name) "email" = true →
        inferColumnType name = ColType.email)
    ∧ (∀ name : String, jsIncludes (toLowerJS name) "email" = false →
        (jsIncludes (toLowerJS name) "date" || jsIncludes (toLowerJS name) "time") = true →
        inferColumnType name = ColType.date)
    ∧ (∀ name : String, jsIncludes (toLowerJS name) "email" = false →
        (jsIncludes (toLowerJS name) "date" || jsIncludes (toLowerJS name) "time") = false →
        (jsIncludes (toLowerJS name) "price" || jsIncludes (toLowerJS name) "amount" ||
          jsIncludes (toLowerJS name) "cost") = true →
        inferColumnType name = ColType.number)
    ∧ (∀ name : String, jsIncludes (toLowerJS name) "email" = false →
        (jsIncludes (toLowerJS name) "date" || jsIncludes (toLowerJS name) "time") = false →
        (jsIncludes (toLowerJS name) "price" || jsIncludes (toLowerJS name) "amount" ||
          jsIncludes (toLowerJS name) "cost") = false →
        (jsIncludes (toLowerJS name) "active" || jsIncludes (toLowerJS name) "enabled") = true →
        inferColumnType name = ColType.boolean)
    ∧ (∀ name : String, jsIncludes (toLowerJS name) "email" = false →
        (jsIncludes (toLowerJS name) "date" || jsIncludes (toLowerJS name) "time") = false →
        (jsIncludes (toLowerJS name) "price" || jsIncludes (toLowerJS name) "amount" ||
          jsIncludes (toLowerJS name) "cost") = false →
        (jsIncludes (toLowerJS name) "active" || jsIncludes (toLowerJS name) "enabled") = false →
        inferColumnType name = ColType.string)
    ∧ inferColumnType "email_date" = ColType.email := by
  refine ⟨?_, ?_, ?_, ?_, ?_, ?_, by decide⟩
  · intro name
    cases h : inferColumnType name <;> simp
  · intro name h; simp [inferColumnType, h]
  · intro name h1 h2; simp [inferColumnType, h1, h2]
  · intro name h1 h2 h3; simp [inferColumnType, h1, h2, h3]
  · intro name h1 h2 h3 h4; simp [inferColumnType, h1, h2, h3, h4]
  · intro name h1 h2 h3 h4; simp [inferColumnType, h1, h2, h3, h4]

/-- Closed instances of C3 at names of each keyword group. -/
theorem column_type_inference_witness :
    inferColumnType "Due_Date" = ColType.date ∧
    inferColumnType "unit_price" = ColType.number ∧
    inferColumnType "is_active" = ColType.boolean ∧
    inferColumnType "id" = ColType.string :=
  ⟨column_type_inference.2.2.1 "Due_Date" (by decide) (by decide),
   column_type_inference.2.2.2.1 "unit_price" (by decide) (by decide) (by decide),
   column_type_inference.2.2.2.2.1 "is_active" (by decide) (by decide) (by decide) (by decide),
   column_type_inference.2.2.2.2.2.1 "id" (by decide) (by decide) (by decide) (by decide)⟩

/-- C4: an empty or whitespace-only raw value is invalid with the single
error `"Missing value"` and a null coerced value, for every expected type. -/
theorem missing_value_invalid (dp : String → Option String) (v : String) (t : ColType)
    (h : trimJS v = "") :
    validateValue dp v t =
      { isValid := false, errors := ["Missing value"],
        cleanedValue := JSValue.null, type := t } := by
  unfold validateValue
  rw [h]
  simp

/-- Closed instance of C4 on a whitespace-only cell of number type. -/
theorem missing_value_invalid_witness :
    validateValue dparse0 "  " ColType.number =
      { isValid := false, errors := ["Missing value"],
        cleanedValue := JSValue.null, type := ColType.number } :=
  missing_value_invalid dparse0 "  " ColType.number (by decide)

/-- C9: boolean validation is case-insensitive; true-set and false-set
members coerce to the respective boolean, anything else is invalid with
error `"Invalid boolean value"`. -/
theorem boolean_validation (dp : String → Option String) (v : String)
    (h : trimJS v ≠ "") :
    (toLowerJS (trimJS v) ∈ ["true", "1", "yes", "on"] →
      validateValue dp v ColType.boolean =
        { isValid := true, errors := [],
          cleanedValue := JSValue.boolean true, type := ColType.boolean })
    ∧ (toLowerJS (trimJS v) ∈ ["false", "0", "no", "off"] →
      validateValue dp v ColType.boolean =
        { isValid := true, errors := [],
          cleanedValue := JSValue.boolean false, type := ColType.boolean })
    ∧ (toLowerJS (trimJS v) ∉ ["true", "1", "yes", "on"] →
       toLowerJS (trimJS v) ∉ ["false", "0", "no", "off"] →
      validateValue dp v ColType.boolean =
        { isValid := false, errors := ["Invalid boolean value"],
          cleanedValue := JSValue.str (trimJS v), type := ColType.boolean }) := by
  have hb : validateValue dp v ColType.boolean =
      (if toLowerJS (trimJS v) ∈ ["true", "1", "yes", "on"] then
        { isValid := true, errors := [], cleanedValue := JSValue.boolean true,
          type := ColType.boolean }
      else if toLowerJS (trimJS v) ∈ ["false", "0", "no", "off"] then
        { isValid := true, errors := [], cleanedValue := JSValue.boolean false,
          type := ColType.boolean }
      else
        { isValid := false, errors := ["Invalid boolean value"],
          cleanedValue := JSValue.str (trimJS v), type := ColType.boolean }) := by
    unfold validateValue
    rw [if_neg h]
  refine ⟨?_, ?_, ?_⟩
  · intro hm
    rw [hb, if_pos hm]
  · intro hm
    have h1 : toLowerJS (trimJS v) ∉ ["true", "1", "yes", "on"] := by
      intro hc
      simp only [List.mem_cons, List.not_mem_nil, or_false] at hc hm
      rcases hm with h2 | h2 | h2 | h2 <;> rw [h2] at hc <;>
        rcases hc with h3 | h3 | h3 | h3 <;> exact absurd h3 (by decide)
    rw [hb, if_neg h1, if_pos hm]
  · intro h1 h2
    rw [hb, if_neg h1, if_neg h2]

/-- Closed instances of C9: `"Yes"` coerces true, `"off"` coerces false,
`"maybe"` is invalid. -/
theorem boolean_validation_witness :
    validateValue dparse0 "Yes" ColType.boolean =
      { isValid := true, errors := [],
        cleanedValue := JSValue.boolean true, type := ColType.boolean } ∧
    validateValue dparse0 "off" ColType.boolean =
      { isValid := true, errors := [],
        cleanedValue := JSValue.boolean false, type := ColType.boolean } ∧
    validateValue dparse0 "maybe" ColType.boolean =
      { isValid := false, errors := ["Invalid boolean value"],
        cleanedValue := JSValue.str (trimJS "maybe"), type := ColType.boolean } :=
  ⟨(boolean_validation dparse0 "Yes" (by decide)).1 (by decide),
   (boolean_validation dparse0 "off" (by decide)).2.1 (by decide),
   (boolean_validation dparse0 "maybe" (by decide)).2.2 (by decide) (by decide)⟩

/-- C5 counterexample: the claim ties invalidity to the ENTIRE value not
parsing as a float, but the code uses `parseFloat`, which accepts a numeric
prefix: `"3abc"` does not parse entirely, yet the cell is valid. -/
theorem number_validation_cex :
    ¬ (((validateValue dparse0 "3abc" ColType.number).isValid = false) ↔
        parsesAsFloatEntirely "3abc" = false) := by decide

/-- C5 amended: a non-empty number cell is invalid (with the single error
`"Invalid number format"`, keeping the trimmed string) exactly when
`parseFloat` of the trimmed value is NaN, i.e. when the value has no
parseable numeric prefix; otherwise the coerced value is the parsed number
of the longest numeric prefix. -/
theorem number_validation (dp : String → Option String) (v : String)
    (h : trimJS v ≠ "") :
    ((validateValue dp v ColType.number).isValid = false ↔
      parseFloatJS (trimJS v) = none)
    ∧ (parseFloatJS (trimJS v) = none →
        validateValue dp v ColType.number =
          { isValid := false, errors := ["Invalid number format"],
            cleanedValue := JSValue.str (trimJS v), type := ColType.number })
    ∧ (∀ n : JSNum, parseFloatJS (trimJS v) = some n →
        validateValue dp v ColType.number =
          { isValid := true, errors := [],
            cleanedValue := JSValue.num n, type := ColType.number }) := by
  have hb : validateValue dp v ColType.number =
      (match parseFloatJS (trimJS v) with
      | none =>
        { isValid := false, errors := ["Invalid number format"],
          cleanedValue := JSValue.str (trimJS v), type := ColType.number }
      | some n =>
        { isValid := true, errors := [],
          cleanedValue := JSValue.num n, type := ColType.number }) := by
    unfold validateValue
    rw [if_neg h]
  cases hp : parseFloatJS (trimJS v) with
  | none =>
    rw [hb, hp]
    exact ⟨by simp, fun _ => rfl, fun n hn => absurd hn (by simp)⟩
  | some n =>
    rw [hb, hp]
    refine ⟨by simp, fun hc => absurd hc (by simp), fun m hm => ?_⟩
    obtain rfl : n = m := Option.some.inj hm
    rfl

/-- Closed instance of the amended C5 at value `"1.5"` (a decimal whose
double is exact). -/
theorem number_validation_witness :
    validateValue dparse0 "1.5" ColType.number =
      { isValid := true, errors := [],
        cleanedValue := JSValue.num (JSNum.finite (mkRat 3 2)),
        type := ColType.number } :=
  (number_validation dparse0 "1.5" (by decide)).2.2
    (JSNum.finite (mkRat 3 2)) (by decide)

/-- C6 counterexample: the field parser does not preserve interior double
quotes — `replace(/"/g, '')` deletes them all: on input `a"b` the parsed
field is `ab`, not `a"b`. -/
theorem field_parsing_cex :
    parseField "a\"b" ≠ "a\"b" ∧ parseField "a\"b" = "ab" := by decide

/-- C6 amended: each header and data field is obtained by splitting the
line on commas, trimming the field, and removing ALL double-quote
characters, interior ones included; no double quote survives parsing.  The
concrete run shows header `id"x` becoming `idx` and `"name"` becoming
`name` in the summary's column list. -/
theorem field_parsing_amended :
    (∀ f : String, (parseField f).toList = (trimJS f).toList.filter (fun c => c ≠ '"'))
    ∧ (∀ f : String, ((parseField f).toList.contains '"') = false)
    ∧ ((validateCSV dparse0 "id\"x,\"name\"\n1,2").toOption.map (fun p =>
         p.2.columnTypes.map Prod.fst) = some ["idx", "name"])
    ∧ parseField " \"a\"b\" " = "ab" := by
  refine ⟨fun f => rfl, ?_, by decide, by decide⟩
  intro f
  have hmem : '"' ∉ (parseField f).toList := by
    intro hc
    have := (List.mem_filter.1 hc).2
    simp at this
  simpa using hmem

/-- C10: a non-empty cell that fails validation against the number, email,
date or boolean type keeps the trimmed raw string as its coerced value (not
null); it therefore enters the cleaned row data used as the duplicate key,
so two rows with identical invalid raw cells are classified as duplicates
of each other. -/
theorem invalid_coerced_string :
    (∀ (dp : String → Option String) (v : String) (t : ColType),
       (t = ColType.number ∨ t = ColType.email ∨ t = ColType.date ∨ t = ColType.boolean) →
       trimJS v ≠ "" → (validateValue dp v t).isValid = false →
       (validateValue dp v t).cleanedValue = JSValue.str (trimJS v))
    ∧ ((processRows dparse0 ["price"] [fun _ => "abc", fun _ => "abc"] 1 []).map
        (fun r => (r.isValid, r.isDuplicate, r.data))
        = [(false, false, [JSValue.str "abc"]), (false, true, [JSValue.str "abc"])]) := by
  constructor
  · intro dp v t ht h hinv
    rcases ht with rfl | rfl | rfl | rfl
    · unfold validateValue at hinv ⊢
      rw [if_neg h] at hinv ⊢
      cases hp : parseFloatJS (trimJS v) with
      | none => rfl
      | some n => rw [hp] at hinv; exact absurd hinv (by simp)
    · unfold validateValue at hinv ⊢
      rw [if_neg h] at hinv ⊢
      cases hp : emailRegexTest (trimJS v) with
      | false => rfl
      | true => rw [hp] at hinv; exact absurd hinv (by simp)
    · unfold validateValue at hinv ⊢
      rw [if_neg h] at hinv ⊢
      cases hp : dp (trimJS v) with
      | none => rfl
      | some iso => rw [hp] at hinv; exact absurd hinv (by simp)
    · have hb : validateValue dp v ColType.boolean =
          (if toLowerJS (trimJS v) ∈ ["true", "1", "yes", "on"] then
            { isValid := true, errors := [],
              cleanedValue := JSValue.boolean true, type := ColType.boolean }
          else if toLowerJS (trimJS v) ∈ ["false", "0", "no", "off"] then
            { isValid := true, errors := [],
              cleanedValue := JSValue.boolean false, type := ColType.boolean }
          else
            { isValid := false, errors := ["Invalid boolean value"],
              cleanedValue := JSValue.str (trimJS v), type := ColType.boolean }) := by
        unfold validateValue
        rw [if_neg h]
      rw [hb] at hinv ⊢
      by_cases h1 : toLowerJS (trimJS v) ∈ ["true", "1", "yes", "on"]
      · rw [if_pos h1] at hinv
        exact absurd hinv (by simp)
      · rw [if_neg h1] at hinv ⊢
        by_cases h2 : toLowerJS (trimJS v) ∈ ["false", "0", "no", "off"]
        · rw [if_pos h2] at hinv
          exact absurd hinv (by simp)
        · rw [if_neg h2]
  · decide

/-- Closed instance of C10: the invalid number cell `"abc"` keeps the
trimmed string as its coerced value. -/
theorem invalid_coerced_string_witness :
    (validateValue dparse0 "abc" ColType.number).cleanedValue
      = JSValue.str (trimJS "abc") :=
  invalid_coerced_string.1 dparse0 "abc" ColType.number (Or.inl rfl)
    (by decide) (by decide)

/-- Row numbers in a run increase from the starting index, one per row. -/
theorem processRows_getD_rowNumber (dp : String → Option String) (c : List String) :
    ∀ (rows : List (String → String)) (n : Nat) (seen : List (List JSValue)) (k : Nat),
      k < rows.length →
      ((processRows dp c rows n seen).getD k defaultRowResult).rowNumber = n + k := by
  intro rows
  induction rows with
  | nil => intro n seen k hk; exact absurd hk (by simp)
  | cons r rest ih =>
    intro n seen k hk
    rw [processRows_cons]
    cases k with
    | zero => rw [List.getD_cons_zero]; rfl
    | succ k' =>
      rw [List.getD_cons_succ, ih (n + 1) _ k' (by simpa using Nat.lt_of_succ_lt_succ hk)]
      omega

/-- C7: row numbers are loop indices over the blank-line-filtered lines —
the retained header is index 0 and the k-th retained data line becomes row
k+1 — so for `"name\nAlice\n\nBob"` Alice is row 1 and Bob is row 2. -/
theorem row_numbering :
    (∀ (dp : String → Option String) (csv : String) (results : List RowValidationResult)
       (summary : CSVValidationSummary),
       validateCSV dp csv = Except.ok (results, summary) →
       results.length + 1 = (filteredLines csv).length ∧
       ∀ k : Nat, k < results.length →
         (results.getD k defaultRowResult).rowNumber = k + 1)
    ∧ ((validateCSV dparse0 "name\nAlice\n\nBob").toOption.map (fun p =>
        p.1.map (fun r => r.rowNumber)) = some [1, 2]) := by
  constructor
  · intro dp csv results summary h
    unfold validateCSV at h
    cases hl : filteredLines csv with
    | nil => rw [hl] at h; exact absurd h (by simp)
    | cons headerLine dataLines =>
      rw [hl] at h
      simp only [Except.ok.injEq, Prod.mk.injEq] at h
      obtain ⟨hres, hsum⟩ := h
      subst hres
      constructor
      · rw [processRows_length]
        simp
      · intro k hk
        rw [processRows_length] at hk
        rw [processRows_getD_rowNumber dp _ _ 1 [] k hk]
        omega
  · decide

/-- Closed instance of C7: in the run on `"name\nAlice\n\nBob"` the first
retained data row carries row number 1. -/
theorem row_numbering_witness :
    (([{ rowNumber := 1, data := [JSValue.str "Alice"], errors := [],
         isDuplicate := false, isValid := true },
       { rowNumber := 2, data := [JSValue.str "Bob"], errors := [],
         isDuplicate := false, isValid := true }] : List RowValidationResult).getD 0
      defaultRowResult).rowNumber = 0 + 1 :=
  (row_numbering.1 dparse0 "name\nAlice\n\nBob"
    [{ rowNumber := 1, data := [JSValue.str "Alice"], errors := [],
       isDuplicate := false, isValid := true },
     { rowNumber := 2, data := [JSValue.str "Bob"], errors := [],
       isDuplicate := false, isValid := true }]
    { totalRows := 2, validRows := 2, duplicateRows := 0, errorRows := 0,
      columnTypes := [("name", ColType.string)], validationErrors := [], issues := [] }
    rfl).2 0 (by decide)

/-- C8: zero retained lines after blank-line filtering fail with the
rejected-operation error `"Empty CSV file"` and produce no row results and
no summary, while any input with a retained line yields a successful
report — per-cell and per-row problems are recorded in it, never thrown. -/
theorem empty_input_rejected :
    (∀ (dp : String → Option String) (csv : String), filteredLines csv = [] →
       validateCSV dp csv = Except.error "Empty CSV file")
    ∧ (∀ (dp : String → Option String) (csv : String), filteredLines csv ≠ [] →
       (validateCSV dp csv).isOk = true) := by
  constructor
  · intro dp csv h
    unfold validateCSV
    rw [h]
  · intro dp csv h
    unfold validateCSV
    cases hl : filteredLines csv with
    | nil => exact absurd hl h
    | cons a l => rfl

/-- Closed instances of C8: a blank-only file is rejected, a non-blank file
succeeds. -/
theorem empty_input_rejected_witness :
    validateCSV dparse0 "\n \n" = Except.error "Empty CSV file" ∧
    (validateCSV dparse0 "a,b\n1,2").isOk = true :=
  ⟨empty_input_rejected.1 dparse0 "\n \n" (by decide),
   empty_input_rejected.2 dparse0 "a,b\n1,2" (by decide)⟩

end LogiData
